import Mathlib

/-!
Shallow embedding of src/settings.py: a process-local, file-backed
key-value settings store with an optional strict mode.

Modelling conventions:
  * JSON values are the tagged union `Value` (null, bool, number, string,
    sequence, string-keyed mapping).  JSON numbers are modelled as `Int`;
    floating-point literals play no role in any claim.  Python equality
    `==` on such values is structural and is modelled by `Value.beq`.
    (Python additionally identifies `True == 1`; no claim exercises that
    corner, and the model keeps booleans and numbers distinct.)
  * Python dictionaries are association lists with unique keys
    (`Obj := List (String × Value)`), with first-match lookup.
  * The backing file is the abstract `FileContent`: the JSON text codec
    and the file system are the external collaborators of the module, so
    the disk is modelled by what the codec would decode from it: the file
    is absent, empty, malformed (text that fails to parse), or parses to
    a JSON value.
  * Python exceptions become `Except Err`.  The module wraps exceptions
    in `SettingsError` only where the source has a try/except: `load` and
    `save` wrap everything, while `set`, `resetSetting` and `reset` have
    no handler, so `KeyError` from `del` and `OSError` from `os.remove`
    escape raw.  `Err` keeps those kinds distinct.
  * The per-instance re-entrant lock and the filename/path resolution
    are irrelevant to the claims and are not modelled; `Settings` keeps
    the three fields the operations read and write: `allSettings`
    (the stored overrides), `registered` (name to default) and
    `strictControl`.
-/

/-- A JSON value, as decoded by the json module: the tagged union of
null, booleans, numbers, strings, sequences and string-keyed mappings. -/
inductive Value where
  | null
  | bool (b : Bool)
  | int (n : Int)
  | str (s : String)
  | list (items : List Value)
  | obj (fields : List (String × Value))
deriving Repr

mutual

/-- Structural equality on JSON values, modelling Python `==`. -/
def Value.beq : Value → Value → Bool
  | Value.null, Value.null => true
  | Value.bool a, Value.bool b => a == b
  | Value.int a, Value.int b => a == b
  | Value.str a, Value.str b => a == b
  | Value.list xs, Value.list ys => Value.beqList xs ys
  | Value.obj xs, Value.obj ys => Value.beqObj xs ys
  | _, _ => false

/-- Elementwise equality of JSON sequences. -/
def Value.beqList : List Value → List Value → Bool
  | [], [] => true
  | x :: xs, y :: ys => Value.beq x y && Value.beqList xs ys
  | _, _ => false

/-- Fieldwise equality of JSON mappings. -/
def Value.beqObj : List (String × Value) → List (String × Value) → Bool
  | [], [] => true
  | (k, v) :: xs, (l, w) :: ys => k == l && Value.beq v w && Value.beqObj xs ys
  | _, _ => false

end

/-- True when the value is a JSON object, modelling
Python `isinstance(v, dict)`. -/
def Value.isObj : Value → Bool
  | Value.obj _ => true
  | _ => false

/-- The kinds of exception the module can let escape.  `settingsError`
is the module's own `SettingsError`; the others are Python built-in
exceptions that some operations raise without wrapping. -/
inductive Err where
  | settingsError (msg : String)
  | keyError (key : String)
  | valueError (msg : String)
  | osError (msg : String)
deriving Repr, DecidableEq

/-- A Python dict of JSON values: an association list with unique keys. -/
abbrev Obj := List (String × Value)

/-- Dict lookup, first match wins (keys are unique in any dict the code
builds). -/
def Obj.find : Obj → String → Option Value
  | [], _ => none
  | (k', v) :: rest, k => if k' = k then some v else Obj.find rest k

/-- Key membership, modelling Python `key in d`. -/
def Obj.contains (m : Obj) (k : String) : Bool :=
  (Obj.find m k).isSome

/-- Dict assignment `d[k] = v`: replace the binding in place if the key
is present, otherwise append the new binding (insertion order). -/
def Obj.setKey : Obj → String → Value → Obj
  | [], k, v => [(k, v)]
  | (k', v') :: rest, k, v =>
    if k' = k then (k, v) :: rest else (k', v') :: Obj.setKey rest k v

/-- Dict deletion `del d[k]` for a present key: drop every binding of
the key (a dict holds at most one). -/
def Obj.removeKey : Obj → String → Obj
  | [], _ => []
  | (k', v') :: rest, k =>
    if k' = k then Obj.removeKey rest k else (k', v') :: Obj.removeKey rest k

/-- What the JSON codec decodes from the backing file on disk. -/
inductive FileContent where
  | absent
  | empty
  | malformed (text : String)
  | json (v : Value)
deriving Repr

/-- Models `os.path.exists` on the backing path. -/
def FileContent.fileExists : FileContent → Bool
  | FileContent.absent => false
  | _ => true

/-- Models `json.load` on an open file: `some v` when the content parses
to the JSON value `v`, `none` when parsing raises `ValueError` (empty or
malformed input). -/
def jsonLoad : FileContent → Option Value
  | FileContent.json v => some v
  | _ => none

/-- The in-memory state of one `Settings` instance (settings.py lines
107-112): the stored overrides, the registered defaults and the strict
flag.  The lock and the filename do not affect any claim. -/
structure Settings where
  allSettings : Obj
  registered : Obj
  strictControl : Bool
deriving Repr

/-- Settings.get (settings.py lines 210-224): the stored value if
present, else the registered default, else an error in strict mode and
None (JSON null) otherwise. -/
def Settings.get (s : Settings) (setting_name : String) : Except Err Value :=
  match Obj.find s.allSettings setting_name with
  | some v => Except.ok v
  | none =>
    match Obj.find s.registered setting_name with
    | some d => Except.ok d
    | none =>
      if s.strictControl then
        Except.error (Err.settingsError ("reading unregistered setting " ++ setting_name))
      else
        Except.ok Value.null

/-- Settings.defaultValue (settings.py lines 226-237). -/
def Settings.defaultValue (s : Settings) (setting_name : String) : Except Err Value :=
  match Obj.find s.registered setting_name with
  | some d => Except.ok d
  | none =>
    if s.strictControl then
      Except.error (Err.settingsError ("reading unregistered setting " ++ setting_name))
    else
      Except.ok Value.null

/-- Settings.set (settings.py lines 239-251).  Note the collapse branch
runs `del self.allSettings[setting_name]` unconditionally, so when the
key has no stored override the `del` raises `KeyError` (unwrapped). -/
def Settings.set (s : Settings) (setting_name : String) (value : Value) : Except Err Settings :=
  if s.strictControl && !(Obj.contains s.registered setting_name) then
    Except.error (Err.settingsError ("writing unregistered setting " ++ setting_name))
  else if (match Obj.find s.registered setting_name with
           | some d => Value.beq d value
           | none => false) then
    if Obj.contains s.allSettings setting_name then
      Except.ok { s with allSettings := Obj.removeKey s.allSettings setting_name }
    else
      Except.error (Err.keyError setting_name)
  else
    Except.ok { s with allSettings := Obj.setKey s.allSettings setting_name value }

/-- Settings.resetSetting (settings.py lines 200-208).  After the strict
check it runs `del self.allSettings[setting_name]`, which raises
`KeyError` (unwrapped) when the key has no stored override. -/
def Settings.resetSetting (s : Settings) (setting_name : String) : Except Err Settings :=
  if s.strictControl && !(Obj.contains s.registered setting_name) then
    Except.error (Err.settingsError ("writing unregistered setting " ++ setting_name))
  else if Obj.contains s.allSettings setting_name then
    Except.ok { s with allSettings := Obj.removeKey s.allSettings setting_name }
  else
    Except.error (Err.keyError setting_name)

/-- Settings.register (settings.py lines 253-262): record the default
for a new name, no-op on re-registration with an equal default, error on
a conflicting default (Python signature defaults `default_value` to
None; callers in the model always pass it explicitly). -/
def Settings.register (s : Settings) (setting_name : String) (default_value : Value) : Except Err Settings :=
  match Obj.find s.registered setting_name with
  | none => Except.ok { s with registered := Obj.setKey s.registered setting_name default_value }
  | some existing =>
    if !(Value.beq existing default_value) then
      Except.error (Err.settingsError ("cannot register setting " ++ setting_name ++ ": another one registered with this name"))
    else
      Except.ok s

/-- Settings.load (settings.py lines 118-153).  `self.allSettings` is
cleared first; a missing or zero-length file is success; a parse failure
or a non-dict top level raises `SettingsError` (wrapped by the outer
handler) with `allSettings` left cleared; on success the loop copies
every decoded pair into the fresh dict.  (The strict-mode unregistered
warning is a side effect on the reporting hook only and does not change
the state, so it is not modelled.)  Result: the state after the call and
the raised error, if any. -/
def Settings.load (s : Settings) (disk : FileContent) : Settings × Option Err :=
  let s0 : Settings := { s with allSettings := [] }
  match disk with
  | FileContent.absent => (s0, none)
  | FileContent.empty => (s0, none)
  | FileContent.malformed _ =>
    (s0, some (Err.settingsError "failed to load settings: error while parsing config file"))
  | FileContent.json v =>
    match v with
    | Value.obj pairs =>
      ({ s0 with allSettings := pairs.foldl (fun acc kv => Obj.setKey acc kv.1 kv.2) [] }, none)
    | _ => (s0, some (Err.settingsError "failed to load settings: invalid config file format"))

/-- The merge loop of Settings.save (settings.py lines 178-184), as
written: `for key, value in saved_settings` iterates over the KEYS of
the dict and tuple-unpacks each key string into two characters, a
`ValueError` unless the key is exactly two characters long; the write
target `settings` aliases `self.allSettings`, so the non-strict
membership test sees earlier writes of the same loop.  This code is
unreachable (see `Settings.save`), and is modelled only so that the
embedding has the same shape as the source. -/
def saveMergeLoop (strictControl : Bool) (registered saved_settings : Obj) : List String → Obj → Except Err Obj
  | [], settings => Except.ok settings
  | kstr :: rest, settings =>
    match kstr.toList with
    | [c, _] =>
      let key := String.mk [c]
      let keepKey := if strictControl then !(Obj.contains registered key) else !(Obj.contains settings key)
      if keepKey then
        match Obj.find saved_settings key with
        | some v => saveMergeLoop strictControl registered saved_settings rest (Obj.setKey settings key v)
        | none => Except.error (Err.keyError key)
      else
        saveMergeLoop strictControl registered saved_settings rest settings
    | _ => Except.error (Err.valueError "cannot unpack key")

/-- Settings.save (settings.py lines 155-188).  The source opens the
backing file with mode w+t, which TRUNCATES it before anything is read:
`json.load` then always sees an empty file and raises `ValueError`, so
`saved_settings` is None, the `isinstance(saved_settings, dict)` test
fails, and the keep-unregistered merge loop never runs.  `json.dump`
then writes the current settings.  Any exception would be wrapped as
`SettingsError` by the outer handler.  The prior `disk` content is a
parameter of the model precisely to show it cannot influence the
result. -/
def Settings.save (s : Settings) (disk : FileContent) (keep_unregistered : Bool) : Except Err (Settings × FileContent) :=
  let fileAfterOpen : FileContent := FileContent.empty
  let merged : Except Err Obj :=
    if !s.strictControl || keep_unregistered then
      match jsonLoad fileAfterOpen with
      | some (Value.obj saved_settings) =>
        saveMergeLoop s.strictControl s.registered saved_settings (saved_settings.map Prod.fst) s.allSettings
      | _ => Except.ok s.allSettings
    else
      Except.ok s.allSettings
  match merged with
  | Except.ok settings =>
    Except.ok ({ s with allSettings := settings }, FileContent.json (Value.obj settings))
  | Except.error _ => Except.error (Err.settingsError "failed to save settings")

/-- Settings.reset (settings.py lines 190-198): remove the backing file
when it exists, then clear `allSettings`.  There is no exception
handler, so a failing `os.remove` (the external outcome is the
`removeError` parameter) escapes as a raw `OSError` before the clear. -/
def Settings.reset (s : Settings) (disk : FileContent) (removeError : Option String) : Except Err (Settings × FileContent) :=
  if FileContent.fileExists disk then
    match removeError with
    | some msg => Except.error (Err.osError msg)
    | none => Except.ok ({ s with allSettings := [] }, FileContent.absent)
  else
    Except.ok ({ s with allSettings := [] }, disk)

/-- True when the computation raised the module's own `SettingsError`
(the ConfigError of the specification). -/
def raisedSettingsError {α : Type} : Except Err α → Bool
  | Except.error (Err.settingsError _) => true
  | _ => false

/-- The specification's data-model invariant: a registered key never has
a stored override that is `==` to its registered default. -/
def DefaultCollapsed (s : Settings) : Prop :=
  ∀ k v d, Obj.find s.allSettings k = some v → Obj.find s.registered k = some d →
    Value.beq d v = false

/-! Association-list lemmas used by the claim proofs. -/

theorem Obj.find_eq_none_of_contains_eq_false {m : Obj} {k : String}
    (h : Obj.contains m k = false) : Obj.find m k = none := by
  unfold Obj.contains at h
  cases hf : Obj.find m k with
  | none => rfl
  | some v => rw [hf] at h; simp at h

theorem Obj.contains_eq_true_of_find {m : Obj} {k : String} {v : Value}
    (h : Obj.find m k = some v) : Obj.contains m k = true := by
  unfold Obj.contains
  rw [h]
  rfl

theorem Obj.find_setKey_self (m : Obj) (k : String) (v : Value) :
    Obj.find (Obj.setKey m k v) k = some v := by
  induction m with
  | nil => simp [Obj.setKey, Obj.find]
  | cons p rest ih =>
    obtain ⟨q, w⟩ := p
    by_cases h : q = k
    · simp [Obj.setKey, h, Obj.find]
    · simp [Obj.setKey, h, Obj.find, ih]

theorem Obj.find_setKey_ne (m : Obj) {k q : String} (h : q ≠ k) (v : Value) :
    Obj.find (Obj.setKey m k v) q = Obj.find m q := by
  induction m with
  | nil =>
    simp only [Obj.setKey, Obj.find]
    rw [if_neg (Ne.symm h)]
  | cons p rest ih =>
    obtain ⟨k', v'⟩ := p
    by_cases hk : k' = k
    · subst hk
      simp only [Obj.setKey, if_pos rfl, Obj.find]
      rw [if_neg (Ne.symm h), if_neg (Ne.symm h)]
    · simp only [Obj.setKey, if_neg hk, Obj.find]
      by_cases hq : k' = q
      · rw [if_pos hq, if_pos hq]
      · rw [if_neg hq, if_neg hq, ih]

theorem Obj.find_removeKey_self (m : Obj) (k : String) :
    Obj.find (Obj.removeKey m k) k = none := by
  induction m with
  | nil => rfl
  | cons p rest ih =>
    obtain ⟨k', v'⟩ := p
    by_cases h : k' = k
    · simp [Obj.removeKey, h, ih]
    · simp [Obj.removeKey, h, Obj.find, ih]

theorem Obj.find_removeKey_ne (m : Obj) {k q : String} (h : q ≠ k) :
    Obj.find (Obj.removeKey m k) q = Obj.find m q := by
  induction m with
  | nil => rfl
  | cons p rest ih =>
    obtain ⟨k', v'⟩ := p
    simp only [Obj.removeKey]
    by_cases hk : k' = k
    · rw [if_pos hk, ih]
      simp only [Obj.find]
      rw [if_neg (by rw [hk]; exact Ne.symm h)]
    · rw [if_neg hk]
      simp only [Obj.find]
      by_cases hq : k' = q
      · rw [if_pos hq, if_pos hq]
      · rw [if_neg hq, if_neg hq, ih]

theorem Obj.find_eq_none_iff {m : Obj} {k : String} :
    Obj.find m k = none ↔ k ∉ m.map Prod.fst := by
  induction m with
  | nil => simp [Obj.find]
  | cons p rest ih =>
    obtain ⟨k', v'⟩ := p
    simp only [Obj.find, List.map_cons, List.mem_cons]
    by_cases h : k' = k
    · subst h
      simp
    · rw [if_neg h]
      simp [ih, Ne.symm h]

theorem Obj.setKey_of_find_none {m : Obj} {k : String} (h : Obj.find m k = none) (v : Value) :
    Obj.setKey m k v = m ++ [(k, v)] := by
  induction m with
  | nil => rfl
  | cons p rest ih =>
    obtain ⟨k', v'⟩ := p
    simp only [Obj.find] at h
    by_cases hk : k' = k
    · rw [if_pos hk] at h
      exact absurd h (by simp)
    · rw [if_neg hk] at h
      simp [Obj.setKey, hk, ih h]

theorem Obj.foldl_setKey (ps : Obj) : ∀ acc : Obj,
    ((acc ++ ps).map Prod.fst).Nodup →
    ps.foldl (fun a kv => Obj.setKey a kv.1 kv.2) acc = acc ++ ps := by
  induction ps with
  | nil =>
    intro acc _
    simp
  | cons p rest ih =>
    intro acc hnd
    obtain ⟨k, v⟩ := p
    have hk : k ∉ acc.map Prod.fst := by
      have h2 : (acc.map Prod.fst ++ k :: rest.map Prod.fst).Nodup := by simpa using hnd
      have hdis := List.disjoint_of_nodup_append h2
      exact fun hm => hdis hm (List.mem_cons_self k _)
    have hnd' : (((acc ++ [(k, v)]) ++ rest).map Prod.fst).Nodup := by
      rw [List.append_assoc]
      simpa using hnd
    have hfind : Obj.find acc k = none := Obj.find_eq_none_iff.mpr hk
    calc ((k, v) :: rest).foldl (fun a kv => Obj.setKey a kv.1 kv.2) acc
        = rest.foldl (fun a kv => Obj.setKey a kv.1 kv.2) (Obj.setKey acc k v) := by
          rw [List.foldl_cons]
      _ = rest.foldl (fun a kv => Obj.setKey a kv.1 kv.2) (acc ++ [(k, v)]) := by
          rw [Obj.setKey_of_find_none hfind]
      _ = (acc ++ [(k, v)]) ++ rest := ih (acc ++ [(k, v)]) hnd'
      _ = acc ++ (k, v) :: rest := by
          rw [List.append_assoc]
          rfl

theorem Obj.foldl_setKey_nil {ps : Obj} (hnd : (ps.map Prod.fst).Nodup) :
    ps.foldl (fun a kv => Obj.setKey a kv.1 kv.2) [] = ps := by
  simpa using Obj.foldl_setKey ps [] (by simpa using hnd)

/-- Congruence for `get`: the result depends only on the three state
fields. -/
theorem Settings.get_congr {s1 s2 : Settings} (h1 : s1.allSettings = s2.allSettings)
    (h2 : s1.registered = s2.registered) (h3 : s1.strictControl = s2.strictControl)
    (k : String) : s1.get k = s2.get k := by
  cases s1
  cases s2
  cases h1
  cases h2
  cases h3
  rfl

/-!  Claim theorems. -/

/-- Claim C1, evidence of the code bug: `save` opens the backing file
with mode w+t, truncating it before the merge can read it back, so the
merge never preserves anything.  A non-strict store whose file already
holds the foreign pair plugin_x = 1 saves its in-memory entries and the
written file no longer contains plugin_x; the same happens for a strict
store with keepUnregistered (key a registered with default 0, stored
override 2).  This contradicts the docstring of `save` itself
(settings.py lines 156-160). -/
theorem C1_save_drops_foreign_key :
    Settings.save ⟨[("a", Value.int 2)], [], false⟩
        (FileContent.json (Value.obj [("plugin_x", Value.int 1)])) true
      = Except.ok (⟨[("a", Value.int 2)], [], false⟩,
          FileContent.json (Value.obj [("a", Value.int 2)])) ∧
    Settings.save ⟨[("a", Value.int 2)], [("a", Value.int 0)], true⟩
        (FileContent.json (Value.obj [("plugin_x", Value.int 1)])) true
      = Except.ok (⟨[("a", Value.int 2)], [("a", Value.int 0)], true⟩,
          FileContent.json (Value.obj [("a", Value.int 2)])) :=
  ⟨rfl, rfl⟩

/-- Claim C2, evidence of the code bug: setting a registered key to its
registered default runs `del self.allSettings[name]` unconditionally
(settings.py line 249), so when the key has no stored override the call
raises `KeyError` instead of succeeding as a no-op.  The first conjunct
is exactly the usage example of the module docstring (register
god_mode = False, read it back, write the read value); the second shows
the same failure on a strict store, so `set` does not succeed for every
value even on names it may write. -/
theorem C2_set_to_default_raises_keyError :
    (Settings.register ⟨[], [], false⟩ "god_mode" (Value.bool false)).bind
        (fun s => s.set "god_mode" (Value.bool false))
      = Except.error (Err.keyError "god_mode") ∧
    Settings.set ⟨[], [("a", Value.int 1)], true⟩ "a" (Value.int 1)
      = Except.error (Err.keyError "a") :=
  ⟨rfl, rfl⟩

/-- Claim C3, evidence of the code bug: `resetSetting` runs
`del self.allSettings[name]` (settings.py line 208) with no handler, so
resetting a key that has no stored override raises `KeyError` — on a
non-strict store for any absent key, and on a strict store even for a
registered key.  The claim (and the spec) say these calls succeed as
no-ops, and `KeyError` is not the module's documented `SettingsError`. -/
theorem C3_resetSetting_raises_keyError :
    Settings.resetSetting ⟨[], [], false⟩ "x" = Except.error (Err.keyError "x") ∧
    Settings.resetSetting ⟨[], [("god_mode", Value.bool false)], true⟩ "god_mode"
      = Except.error (Err.keyError "god_mode") :=
  ⟨rfl, rfl⟩

/-- Claim C5, counterexample: `reset` has no exception handler
(settings.py lines 190-198), so when the file exists and `os.remove`
fails the raw `OSError` escapes; nothing wraps it as the module's
`SettingsError`/ConfigError, contrary to the claim. -/
theorem C5_reset_error_not_wrapped :
    Settings.reset ⟨[("a", Value.int 1)], [], false⟩
        (FileContent.json (Value.obj [("a", Value.int 1)])) (some "permission denied")
      = Except.error (Err.osError "permission denied") ∧
    raisedSettingsError (Settings.reset ⟨[("a", Value.int 1)], [], false⟩
        (FileContent.json (Value.obj [("a", Value.int 1)])) (some "permission denied"))
      = false :=
  ⟨rfl, rfl⟩

/-- Claim C5 as amended: `reset` deletes the backing file when it
exists, treats a non-existent file as success, and clears the stored set
to empty; but a file-system error from the deletion propagates as the
raw OS error, not as ConfigError, and the stored set is then left
unchanged (the clear happens after the removal). -/
theorem C5_reset_amended (s : Settings) (disk : FileContent) :
    Settings.reset s disk none
      = Except.ok ({ s with allSettings := [] },
          if FileContent.fileExists disk then FileContent.absent else disk) ∧
    (FileContent.fileExists disk = true →
      ∀ msg, Settings.reset s disk (some msg) = Except.error (Err.osError msg)) ∧
    (FileContent.fileExists disk = false →
      ∀ msg, Settings.reset s disk (some msg)
        = Except.ok ({ s with allSettings := [] }, disk)) := by
  refine ⟨?_, ?_, ?_⟩
  · cases disk <;> simp [Settings.reset, FileContent.fileExists]
  · intro hex msg
    simp [Settings.reset, hex]
  · intro hex msg
    simp [Settings.reset, hex]

/-- Concrete instance of the amended claim C5. -/
theorem C5_reset_amended_witness :
    Settings.reset ⟨[("a", Value.int 1)], [("b", Value.int 2)], true⟩
        (FileContent.json (Value.obj [("a", Value.int 1)])) none
      = Except.ok (⟨[], [("b", Value.int 2)], true⟩, FileContent.absent) ∧
    Settings.reset ⟨[("a", Value.int 1)], [("b", Value.int 2)], true⟩
        (FileContent.json (Value.obj [("a", Value.int 1)])) (some "EACCES")
      = Except.error (Err.osError "EACCES") := by
  have h := C5_reset_amended ⟨[("a", Value.int 1)], [("b", Value.int 2)], true⟩
    (FileContent.json (Value.obj [("a", Value.int 1)]))
  exact ⟨by simpa using h.1, h.2.1 rfl "EACCES"⟩

/-- Claim C6: on a strict store, `get`, `set` and `resetSetting` of a
name that is neither registered nor stored all raise the module's
`SettingsError` (the ConfigError of the spec), and on a non-strict store
`get` of such a name returns None instead of failing. -/
theorem C6_strict_gating (s : Settings) (name : String)
    (hreg : Obj.find s.registered name = none)
    (hsto : Obj.find s.allSettings name = none) :
    (s.strictControl = true →
      s.get name = Except.error (Err.settingsError ("reading unregistered setting " ++ name)) ∧
      (∀ v, s.set name v
        = Except.error (Err.settingsError ("writing unregistered setting " ++ name))) ∧
      s.resetSetting name
        = Except.error (Err.settingsError ("writing unregistered setting " ++ name))) ∧
    (s.strictControl = false → s.get name = Except.ok Value.null) := by
  have hc : Obj.contains s.registered name = false := by
    simp [Obj.contains, hreg]
  constructor
  · intro hstrict
    refine ⟨?_, ?_, ?_⟩
    · simp [Settings.get, hreg, hsto, hstrict]
    · intro v
      simp [Settings.set, hc, hstrict]
    · simp [Settings.resetSetting, hc, hstrict]
  · intro hstrict
    simp [Settings.get, hreg, hsto, hstrict]

/-- Concrete instance of claim C6: a strict empty store rejects the read
and a non-strict one returns None. -/
theorem C6_strict_gating_witness :
    Settings.get ⟨[], [], true⟩ "z"
      = Except.error (Err.settingsError "reading unregistered setting z") ∧
    Settings.set ⟨[], [], true⟩ "z" (Value.int 1)
      = Except.error (Err.settingsError "writing unregistered setting z") ∧
    Settings.get ⟨[], [], false⟩ "z" = Except.ok Value.null := by
  have h1 := C6_strict_gating ⟨[], [], true⟩ "z" rfl rfl
  have h2 := C6_strict_gating ⟨[], [], false⟩ "z" rfl rfl
  exact ⟨(h1.1 rfl).1, (h1.1 rfl).2.1 (Value.int 1), h2.2 rfl⟩

/-- Claim C7: `register` of a new name records its default; repeating
the registration with an `==` default is a silent no-op; registering a
conflicting default fails with the module's `SettingsError` (and, the
error being raised before any assignment, the recorded default is
unchanged). -/
theorem C7_register_idempotent_conflict_checked (s : Settings) (name : String) (d d2 : Value) :
    (Obj.find s.registered name = none →
      s.register name d
        = Except.ok { s with registered := Obj.setKey s.registered name d }) ∧
    (Obj.find s.registered name = some d →
      (Value.beq d d2 = true → s.register name d2 = Except.ok s) ∧
      (Value.beq d d2 = false →
        s.register name d2
          = Except.error (Err.settingsError
              ("cannot register setting " ++ name ++ ": another one registered with this name")))) := by
  constructor
  · intro h
    simp [Settings.register, h]
  · intro h
    constructor
    · intro hb
      simp [Settings.register, h, hb]
    · intro hb
      simp [Settings.register, h, hb]

/-- Concrete instance of claim C7: the register x 1, register x 2,
register x 1 scenario of the spec. -/
theorem C7_register_witness :
    Settings.register ⟨[], [], true⟩ "x" (Value.int 1)
      = Except.ok ⟨[], [("x", Value.int 1)], true⟩ ∧
    Settings.register ⟨[], [("x", Value.int 1)], true⟩ "x" (Value.int 1)
      = Except.ok ⟨[], [("x", Value.int 1)], true⟩ ∧
    Settings.register ⟨[], [("x", Value.int 1)], true⟩ "x" (Value.int 2)
      = Except.error (Err.settingsError
          "cannot register setting x: another one registered with this name") := by
  have h1 := C7_register_idempotent_conflict_checked ⟨[], [], true⟩ "x" (Value.int 1) (Value.int 1)
  have h2 := C7_register_idempotent_conflict_checked
    ⟨[], [("x", Value.int 1)], true⟩ "x" (Value.int 1) (Value.int 1)
  have h3 := C7_register_idempotent_conflict_checked
    ⟨[], [("x", Value.int 1)], true⟩ "x" (Value.int 1) (Value.int 2)
  refine ⟨by simpa using h1.1 rfl, (h2.2 rfl).1 rfl, (h3.2 rfl).2 rfl⟩

/-- Claim C8: `load` clears the stored set and then succeeds when the
backing file is absent or zero-length; fails with the module's
`SettingsError` leaving the stored set cleared when the content fails to
parse or parses to a non-mapping top level; and on success the stored
set is exactly the decoded mapping. -/
theorem C8_load_outcomes (s : Settings) :
    Settings.load s FileContent.absent = ({ s with allSettings := [] }, none) ∧
    Settings.load s FileContent.empty = ({ s with allSettings := [] }, none) ∧
    (∀ text, Settings.load s (FileContent.malformed text)
      = ({ s with allSettings := [] },
          some (Err.settingsError "failed to load settings: error while parsing config file"))) ∧
    (∀ v, Value.isObj v = false →
      Settings.load s (FileContent.json v)
        = ({ s with allSettings := [] },
            some (Err.settingsError "failed to load settings: invalid config file format"))) ∧
    (∀ pairs, (pairs.map Prod.fst).Nodup →
      Settings.load s (FileContent.json (Value.obj pairs))
        = ({ s with allSettings := pairs }, none)) := by
  refine ⟨rfl, rfl, fun text => rfl, ?_, ?_⟩
  · intro v hv
    cases v <;> first
      | rfl
      | simp [Value.isObj] at hv
  · intro pairs hnd
    simp [Settings.load, Obj.foldl_setKey_nil hnd]

/-- Concrete instance of claim C8: load of a well-formed one-entry file
and load of a non-mapping file. -/
theorem C8_load_outcomes_witness :
    Settings.load ⟨[("old", Value.int 9)], [], false⟩
        (FileContent.json (Value.obj [("x", Value.int 3)]))
      = (⟨[("x", Value.int 3)], [], false⟩, none) ∧
    Settings.load ⟨[("old", Value.int 9)], [], false⟩ (FileContent.json (Value.int 7))
      = (⟨[], [], false⟩,
          some (Err.settingsError "failed to load settings: invalid config file format")) := by
  have h := C8_load_outcomes ⟨[("old", Value.int 9)], [], false⟩
  exact ⟨by simpa using h.2.2.2.2 [("x", Value.int 3)] (by decide),
    by simpa using h.2.2.2.1 (Value.int 7) rfl⟩

/-- Claim C9: `save` writes exactly the in-memory stored mapping (the
first conjunct, which holds for every store and every keepUnregistered
flag), and a fresh store with the same registrations and strictness that
loads the written file answers every `get` exactly as the original store
did, errors included. -/
theorem C9_save_load_roundtrip (s fresh0 : Settings) (disk : FileContent) (keep : Bool)
    (hnd : (s.allSettings.map Prod.fst).Nodup)
    (hstrict : fresh0.strictControl = s.strictControl)
    (hreg : fresh0.registered = s.registered) :
    s.save disk keep = Except.ok (s, FileContent.json (Value.obj s.allSettings)) ∧
    ∀ k, ((fresh0.load (FileContent.json (Value.obj s.allSettings))).1).get k = s.get k := by
  constructor
  · cases h : (!s.strictControl || keep) <;>
      simp [Settings.save, h, jsonLoad]
  · intro k
    have hload : (fresh0.load (FileContent.json (Value.obj s.allSettings))).1
        = { fresh0 with allSettings := s.allSettings } := by
      simp [Settings.load, Obj.foldl_setKey_nil hnd]
    rw [hload]
    exact @Settings.get_congr { fresh0 with allSettings := s.allSettings } s rfl hreg hstrict k

/-- Concrete instance of claim C9: a non-strict store with one override
and one registered default round-trips through save and a fresh load. -/
theorem C9_save_load_roundtrip_witness :
    Settings.save ⟨[("a", Value.int 2)], [("b", Value.int 7)], false⟩ FileContent.absent true
      = Except.ok (⟨[("a", Value.int 2)], [("b", Value.int 7)], false⟩,
          FileContent.json (Value.obj [("a", Value.int 2)])) ∧
    ((Settings.load ⟨[], [("b", Value.int 7)], false⟩
        (FileContent.json (Value.obj [("a", Value.int 2)]))).1).get "a"
      = Settings.get ⟨[("a", Value.int 2)], [("b", Value.int 7)], false⟩ "a" ∧
    ((Settings.load ⟨[], [("b", Value.int 7)], false⟩
        (FileContent.json (Value.obj [("a", Value.int 2)]))).1).get "b"
      = Settings.get ⟨[("a", Value.int 2)], [("b", Value.int 7)], false⟩ "b" := by
  have h := C9_save_load_roundtrip ⟨[("a", Value.int 2)], [("b", Value.int 7)], false⟩
    ⟨[], [("b", Value.int 7)], false⟩ FileContent.absent true (by decide) rfl rfl
  exact ⟨h.1, h.2 "a", h.2 "b"⟩

/-- Claim C10: `save` never changes the in-memory state: the stored and
registered mappings after the call are exactly those before it, for
every store, every prior disk content and both values of the
keepUnregistered flag.  (The merge loop writes through an alias of
`self.allSettings`, but the w+t truncation makes its guard always false,
so the alias is never written.) -/
theorem C10_save_preserves_memory (s : Settings) (disk : FileContent) (keep : Bool) :
    (s.save disk keep).map (fun r => (r.1.allSettings, r.1.registered))
      = Except.ok (s.allSettings, s.registered) := by
  cases h : (!s.strictControl || keep) <;>
    simp [Settings.save, h, jsonLoad, Except.map]

/-- Claim C4, counterexample: neither `register` nor `load` preserves
the default-collapse invariant.  A non-strict store that stores x = 1
(invariant holds: nothing is registered) and then registers x with
default 1 ends with a stored value equal to its registered default; and
a strict store that registered y with default 2 and loads a file
containing y = 2 admits the default value into the stored set. -/
theorem C4_invariant_not_preserved :
    Settings.set ⟨[], [], false⟩ "x" (Value.int 1)
      = Except.ok ⟨[("x", Value.int 1)], [], false⟩ ∧
    DefaultCollapsed ⟨[("x", Value.int 1)], [], false⟩ ∧
    Settings.register ⟨[("x", Value.int 1)], [], false⟩ "x" (Value.int 1)
      = Except.ok ⟨[("x", Value.int 1)], [("x", Value.int 1)], false⟩ ∧
    ¬ DefaultCollapsed ⟨[("x", Value.int 1)], [("x", Value.int 1)], false⟩ ∧
    DefaultCollapsed ⟨[], [("y", Value.int 2)], true⟩ ∧
    Settings.load ⟨[], [("y", Value.int 2)], true⟩
        (FileContent.json (Value.obj [("y", Value.int 2)]))
      = (⟨[("y", Value.int 2)], [("y", Value.int 2)], true⟩, none) ∧
    ¬ DefaultCollapsed ⟨[("y", Value.int 2)], [("y", Value.int 2)], true⟩ := by
  refine ⟨rfl, ?_, rfl, ?_, ?_, rfl, ?_⟩
  · intro k v d hv hd
    simp [Obj.find] at hd
  · intro h
    have hx := h "x" (Value.int 1) (Value.int 1) rfl rfl
    exact absurd hx (by decide)
  · intro k v d hv hd
    simp [Obj.find] at hv
  · intro h
    have hy := h "y" (Value.int 2) (Value.int 2) rfl rfl
    exact absurd hy (by decide)

/-- Claim C4 as amended: the default-collapse invariant is preserved by
`set`, `resetSetting`, `reset` and `save` (and `get` and `defaultValue`
do not change the state at all), but NOT by `register` (when the name
already has a stored value equal to the newly registered default) nor by
`load` (which admits on-disk values equal to registered defaults). -/
theorem C4_invariant_preservation (s : Settings) (h : DefaultCollapsed s) :
    (∀ name v s2, s.set name v = Except.ok s2 → DefaultCollapsed s2) ∧
    (∀ name s2, s.resetSetting name = Except.ok s2 → DefaultCollapsed s2) ∧
    (∀ disk removeErr s2 disk2,
      s.reset disk removeErr = Except.ok (s2, disk2) → DefaultCollapsed s2) ∧
    (∀ disk keep s2 disk2,
      s.save disk keep = Except.ok (s2, disk2) → DefaultCollapsed s2) := by
  refine ⟨?_, ?_, ?_, ?_⟩
  · intro name v s2 hset
    cases hgate : (s.strictControl && !(Obj.contains s.registered name)) with
    | true => simp [Settings.set, hgate] at hset
    | false =>
      cases hdef : (match Obj.find s.registered name with
                    | some d => Value.beq d v
                    | none => false) with
      | true =>
        cases hcont : Obj.contains s.allSettings name with
        | false => simp [Settings.set, hgate, hdef, hcont] at hset
        | true =>
          simp [Settings.set, hgate, hdef, hcont] at hset
          subst hset
          intro k w d hw hd
          by_cases hk : k = name
          · subst hk
            rw [Obj.find_removeKey_self] at hw
            exact absurd hw (by simp)
          · rw [Obj.find_removeKey_ne _ hk] at hw
            exact h k w d hw hd
      | false =>
        simp [Settings.set, hgate, hdef] at hset
        subst hset
        intro k w d hw hd
        by_cases hk : k = name
        · subst hk
          rw [Obj.find_setKey_self] at hw
          cases hw
          cases hfind : Obj.find s.registered k with
          | none => rw [hfind] at hd; exact absurd hd (by simp)
          | some d0 =>
            rw [hfind] at hd
            cases hd
            rw [hfind] at hdef
            exact hdef
        · rw [Obj.find_setKey_ne _ hk] at hw
          exact h k w d hw hd
  · intro name s2 hreset
    cases hgate : (s.strictControl && !(Obj.contains s.registered name)) with
    | true => simp [Settings.resetSetting, hgate] at hreset
    | false =>
      cases hcont : Obj.contains s.allSettings name with
      | false => simp [Settings.resetSetting, hgate, hcont] at hreset
      | true =>
        simp [Settings.resetSetting, hgate, hcont] at hreset
        subst hreset
        intro k w d hw hd
        by_cases hk : k = name
        · subst hk
          rw [Obj.find_removeKey_self] at hw
          exact absurd hw (by simp)
        · rw [Obj.find_removeKey_ne _ hk] at hw
          exact h k w d hw hd
  · intro disk removeErr s2 disk2 hres
    have hclear : DefaultCollapsed { s with allSettings := ([] : Obj) } := by
      intro k w d hw hd
      simp [Obj.find] at hw
    cases disk <;> cases removeErr <;>
      simp [Settings.reset, FileContent.fileExists] at hres <;>
      obtain ⟨h1, _⟩ := hres <;>
      rw [← h1] <;>
      exact hclear
  · intro disk keep s2 disk2 hsave
    cases hb : (!s.strictControl || keep) <;>
      simp [Settings.save, hb, jsonLoad] at hsave <;>
      obtain ⟨h1, _⟩ := hsave <;>
      rw [← h1] <;>
      exact h

/-- Concrete instance of the amended claim C4: a strict store whose only
override differs from its default keeps the invariant across set. -/
theorem C4_invariant_preservation_witness :
    DefaultCollapsed ⟨[("x", Value.int 5)], [("x", Value.int 0)], true⟩ := by
  have hinv : DefaultCollapsed ⟨[], [("x", Value.int 0)], true⟩ := by
    intro k v d hv hd
    simp [Obj.find] at hv
  exact (C4_invariant_preservation ⟨[], [("x", Value.int 0)], true⟩ hinv).1
    "x" (Value.int 5) ⟨[("x", Value.int 5)], [("x", Value.int 0)], true⟩ rfl
